import Mathlib

/-!
Verification development for the VibeMatch server (`src/server/routes.ts`,
`src/server/storage.ts`, `src/shared/schema.ts`, the AI matching service and
the client dashboard computations).

The TypeScript code is shallowly embedded: database tables become lists of
records, each storage method becomes a pure function on a `Db` value, each
route handler becomes a pure function from the database, the caller identity
and the request parameters to an HTTP result (and, for mutating routes, a new
database).  The external text-generation call is a parameter of type
`AiOutcome` describing the outcome of the single call the handler makes.
Timestamps are modelled as `Nat`, JS numbers as `Int` (display-time
percentages as `Rat`).  JS `null`/`undefined` fields become `Option`.
-/

namespace VibeMatch

/-- Rows of the `profiles` table (`src/shared/schema.ts`).  Presentation-only
columns (`avatar`, `tagline`) are included for completeness. -/
structure Profile where
  id : String
  userId : Option String
  name : String
  role : String
  avatar : Option String := none
  tagline : Option String := none
  location : Option String := none
  tags : Option (List String) := none
  createdAt : Nat := 0
deriving DecidableEq

/-- Rows of the `projects` table, restricted to the columns the verified
routes read (`vibeCodeId` for ownership checks and `getProjectsByVibeCoder`;
the remaining descriptive columns only feed the LLM prompt text, which is
external to the embedding). -/
structure Project where
  id : String
  name : String
  vibeCodeId : String
  createdAt : Nat := 0
deriving DecidableEq

/-- Rows of the `project_members` table.  The `decimal` compensation columns
are carried as opaque strings, as they are by the JS driver. -/
structure ProjectMember where
  id : String
  projectId : String
  profileId : String
  role : String
  compensationType : String
  compensationAmount : Option String := none
  ownershipPercentage : Option String := none
  hasAccess : Bool
  joinedAt : Nat := 0
deriving DecidableEq

/-- Rows of the `tasks` table, restricted to the columns the task routes and
the dashboard read. -/
structure Task where
  id : String
  projectId : String
  title : String
  assignedTo : Option String := none
  createdBy : String
  status : String
  createdAt : Nat := 0
deriving DecidableEq

/-- Rows of the `contributions` table, restricted to the columns the
value-distribution computation reads. -/
structure Contribution where
  id : String
  projectId : String
  contributorId : String
  valueScore : Option Int := none
  createdAt : Nat := 0
deriving DecidableEq

/-- Rows of the `matches` table. -/
structure Match where
  id : String
  initiatorId : String
  receiverId : String
  status : String
  matchType : String
  matchReason : Option String := none
  message : Option String := none
  createdAt : Nat := 0
  respondedAt : Option Nat := none
deriving DecidableEq

/-- The relational store.  Each list stands for a table, in insertion order
(used by the embedded `ORDER BY`-free selects in the same way the DB returns
rows of a small table).  The `matches` table is named `matchRows` here only
because `matches` is a reserved token in Lean. -/
structure Db where
  profiles : List Profile := []
  projects : List Project := []
  members : List ProjectMember := []
  tasks : List Task := []
  contributions : List Contribution := []
  matchRows : List Match := []
deriving DecidableEq

/-! ### Sorting helpers

JS `Array.prototype.sort` with comparator `(a, b) => key(b) - key(a)` is a
stable descending sort by `key`; any stable sort agrees with it on a total
preorder, so Mathlib's (stable) `List.insertionSort` with the corresponding
`≥`-by-key relation is a faithful model.  `ORDER BY x DESC` on the database
side is modelled the same way. -/

/-- Descending-by-`createdAt` relation used for `ORDER BY created_at DESC`. -/
def createdDesc {α : Type} (key : α → Nat) (a b : α) : Prop := key b ≤ key a

instance {α : Type} (key : α → Nat) : DecidableRel (createdDesc key) :=
  fun a b => inferInstanceAs (Decidable (key b ≤ key a))

instance {α : Type} (key : α → Nat) : IsTotal α (createdDesc key) :=
  ⟨fun a b => le_total (key b) (key a)⟩

instance {α : Type} (key : α → Nat) : IsTrans α (createdDesc key) :=
  ⟨fun _ _ _ h1 h2 => le_trans h2 h1⟩

/-! ### Storage layer (`src/server/storage.ts`, class `DbStorage`) -/

/-- `DbStorage.getAllProfiles`: `select().from(profiles)`. -/
def getAllProfiles (db : Db) : List Profile := db.profiles

/-- `DbStorage.getProfile`: first row with the given id. -/
def getProfile (db : Db) (id : String) : Option Profile :=
  (db.profiles.filter (fun p => p.id = id)).head?

/-- `DbStorage.getProfileByUserId`: rows with the given `userId`, ordered by
`createdAt` descending, limit 1. -/
def getProfileByUserId (db : Db) (userId : String) : Option Profile :=
  (((db.profiles.filter (fun p => p.userId = some userId))).insertionSort
    (createdDesc Profile.createdAt)).head?

/-- `DbStorage.getProjectsByVibeCoder`. -/
def getProjectsByVibeCoder (db : Db) (vibeCodeId : String) : List Project :=
  db.projects.filter (fun p => p.vibeCodeId = vibeCodeId)

/-- `DbStorage.getProject`: first row with the given id. -/
def getProject (db : Db) (id : String) : Option Project :=
  (db.projects.filter (fun p => p.id = id)).head?

/-- `DbStorage.getProjectMembers`. -/
def getProjectMembers (db : Db) (projectId : String) : List ProjectMember :=
  db.members.filter (fun m => m.projectId = projectId)

/-- `DbStorage.getProjectMember`: first row with the given id. -/
def getProjectMember (db : Db) (id : String) : Option ProjectMember :=
  (db.members.filter (fun m => m.id = id)).head?

/-- `DbStorage.getTasksByProject`: rows of the project, `createdAt`
descending. -/
def getTasksByProject (db : Db) (projectId : String) : List Task :=
  ((db.tasks.filter (fun t => t.projectId = projectId))).insertionSort
    (createdDesc Task.createdAt)

/-- `DbStorage.getContributionsByProject`: rows of the project, `createdAt`
descending. -/
def getContributionsByProject (db : Db) (projectId : String) : List Contribution :=
  ((db.contributions.filter (fun c => c.projectId = projectId))).insertionSort
    (createdDesc Contribution.createdAt)

/-- `DbStorage.getMatches`: rows whose initiator or receiver is the profile,
`createdAt` descending. -/
def getMatches (db : Db) (profileId : String) : List Match :=
  ((db.matchRows.filter
    (fun m => m.initiatorId = profileId ∨ m.receiverId = profileId))).insertionSort
    (createdDesc Match.createdAt)

/-! ### AI matching service (`generateMatches` in the matching-service module) -/

/-- One entry of the `matches` array of the parsed LLM response (interface
`MatchResult`).  JS numbers carrying the score are modelled as `Int`. -/
structure MatchResult where
  profileId : String
  matchScore : Int
  matchReason : String
  matchType : String
deriving DecidableEq

/-- The parsed JSON response object.  `aiResponse.matches` may be absent
(`aiResponse.matches || []` in the source), hence the `Option`. -/
structure AiResponse where
  responseMatches : Option (List MatchResult)
deriving DecidableEq

/-- Outcome of the single external `openai.chat.completions.create` call, as
observed by `generateMatches`: the call may throw (`callFailed`), succeed
with no `content` (`noContent`), succeed with content that `JSON.parse`
rejects (`unparsable`, the exception lands in the same `catch`), or produce
parsable content (`parsed`). -/
inductive AiOutcome where
  | callFailed : AiOutcome
  | noContent : AiOutcome
  | unparsable : AiOutcome
  | parsed : AiResponse → AiOutcome
deriving DecidableEq

/-- A candidate handed to the scorer (interface `MatchCandidate`). -/
structure MatchCandidate where
  profile : Profile
  projects : List Project
deriving DecidableEq

/-- Relation of the JS comparator `(a, b) => b.matchScore - a.matchScore`:
descending by score. -/
def msGe (a b : MatchResult) : Prop := b.matchScore ≤ a.matchScore

instance : DecidableRel msGe :=
  fun a b => inferInstanceAs (Decidable (b.matchScore ≤ a.matchScore))

instance : IsTotal MatchResult msGe := ⟨fun a b => le_total b.matchScore a.matchScore⟩

instance : IsTrans MatchResult msGe := ⟨fun _ _ _ h1 h2 => le_trans h2 h1⟩

/-- `generateMatches` from the matching-service module.  The prompt text and
the network call are external; the call's outcome is the `outcome`
parameter.  Faithful to the source: empty candidate list short-circuits to
`[]` before any call; every failure mode returns `[]` (the `catch` branch);
on a parsed response the entries with `matchScore >= 50` are kept, sorted
descending by score, and truncated to `limit`. -/
def generateMatches (currentUser : Profile) (currentUserProjects : List Project)
    (candidates : List MatchCandidate) (limit : Nat) (outcome : AiOutcome) :
    List MatchResult :=
  if candidates.isEmpty then []
  else
    match outcome with
    | .callFailed => []
    | .noContent => []
    | .unparsable => []
    | .parsed r =>
      (((r.responseMatches.getD []).filter
        (fun m => 50 ≤ m.matchScore)).insertionSort msGe).take limit

/-! ### Suggestion endpoint helpers (`GET /api/matches/suggestions/:profileId`) -/

/-- JS string truthiness for optional query/body string values: `undefined`
and the empty string are falsy. -/
def truthyStr : Option String → Bool
  | none => false
  | some s => s ≠ ""

/-- JS `parseInt(s, 10)`: skip ASCII whitespace, optional sign, then the
longest digit run; no digits means `NaN`, modelled as `none`. -/
def jsParseInt (s : String) : Option Int :=
  let ws := fun c => c = ' ' ∨ c = '\t' ∨ c = '\n' ∨ c = '\r'
  let digitsVal : List Char → Option Nat := fun cs =>
    let ds := cs.takeWhile Char.isDigit
    if ds.isEmpty then none
    else some (ds.foldl (fun a c => a * 10 + (c.toNat - 48)) 0)
  match s.data.dropWhile ws with
  | '-' :: rest => (digitsVal rest).map (fun n => -(n : Int))
  | '+' :: rest => (digitsVal rest).map (fun n => (n : Int))
  | cs => (digitsVal cs).map (fun n => (n : Int))

/-- Limit handling of the suggestions route:
`parsedLimit = limit ? parseInt(limit, 10) : 10` followed by
`Math.min(Math.max(1, isNaN(parsedLimit) ? 10 : parsedLimit), 20)`.
`some none` below is the `NaN` case; a falsy (`undefined` or empty) query
value never reaches `parseInt`. -/
def maxResults (limitQ : Option String) : Nat :=
  let parsedLimit : Option Int :=
    if truthyStr limitQ then jsParseInt (limitQ.getD "") else some 10
  (min (max 1 (match parsedLimit with | none => 10 | some n => n)) 20).toNat

/-- The role-compatibility block of the candidate filter: builders against
investors and technical leads, investors against builders, technical leads
against builders, anything else incompatible. -/
def roleCompatible (userRole candidateRole : String) : Bool :=
  if userRole = "coder" then candidateRole = "investor" ∨ candidateRole = "technical"
  else if userRole = "investor" then candidateRole = "coder"
  else if userRole = "technical" then candidateRole = "coder"
  else false

/-- First candidate filter of the suggestions route: drop the requester
itself, apply the optional `role` query filter (JS-truthy only), then the
role-compatibility block. -/
def candidateFilter (currentProfile : Profile) (profileId : String)
    (roleQ : Option String) (p : Profile) : Bool :=
  if p.id = profileId then false
  else if truthyStr roleQ ∧ p.role ≠ roleQ.getD "" then false
  else roleCompatible currentProfile.role p.role

/-- `existingMatchIds`: for each match of the profile, the counterpart id. -/
def existingMatchIds (db : Db) (profileId : String) : List String :=
  (getMatches db profileId).map
    (fun m => if m.initiatorId = profileId then m.receiverId else m.initiatorId)

/-- Candidates after both narrowing filters (self/role filter, then the
existing-connection exclusion). -/
def candidateProfilesOf (db : Db) (currentProfile : Profile) (profileId : String)
    (roleQ : Option String) : List Profile :=
  ((getAllProfiles db).filter (candidateFilter currentProfile profileId roleQ)).filter
    (fun p => ¬ (existingMatchIds db profileId).contains p.id)

/-- Heuristic pre-ranking score of one candidate: 10 per candidate tag found
in the requester's tag set, plus 5 when the requester's location is truthy
and the candidate's location is strictly equal to it. -/
def heuristicScore (currentProfile candidate : Profile) : Int :=
  let userTags := currentProfile.tags.getD []
  let candidateTags := candidate.tags.getD []
  let overlap := (candidateTags.filter (fun tag => userTags.contains tag)).length
  let score : Int := 10 * (overlap : Int)
  match currentProfile.location with
  | some l => if l ≠ "" ∧ candidate.location = some l then score + 5 else score
  | none => score

/-- Relation of the JS comparator `(a, b) => b.score - a.score` on scored
candidates. -/
def scGe (a b : Profile × Int) : Prop := b.2 ≤ a.2

instance : DecidableRel scGe := fun a b => inferInstanceAs (Decidable (b.2 ≤ a.2))

instance : IsTotal (Profile × Int) scGe := ⟨fun a b => le_total b.2 a.2⟩

instance : IsTrans (Profile × Int) scGe := ⟨fun _ _ _ h1 h2 => le_trans h2 h1⟩

/-- `rankedCandidates`: score every remaining candidate, sort descending by
score (stable, as JS `sort`), truncate to the top 20, drop the scores. -/
def rankedCandidates (db : Db) (currentProfile : Profile) (profileId : String)
    (roleQ : Option String) : List Profile :=
  ((((candidateProfilesOf db currentProfile profileId roleQ).map
    (fun candidate => (candidate, heuristicScore currentProfile candidate))).insertionSort
      scGe).take 20).map Prod.fst

/-- One element of the route's response: the AI match enriched with the
profile looked up by `storage.getProfile` (which may be absent). -/
structure EnrichedMatch where
  result : MatchResult
  profile : Option Profile
deriving DecidableEq

/-- Result of an embedded route handler: a JSON body or an HTTP error
status. -/
inductive HttpResult (α : Type) where
  | ok : α → HttpResult α
  | err : Nat → HttpResult α
deriving DecidableEq

/-- `GET /api/matches/suggestions/:profileId`.  `currentUserId` is the
identity resolved from the dev header or the OIDC session; `outcome` is the
external call's outcome.  Mirrors the handler line by line: 401 without an
identity, 404 without a canonical profile, 403 when the path `profileId` is
not the caller's canonical profile id, then limit parsing, candidate
filtering, pre-ranking, the external scoring step, and enrichment. -/
def suggestionsRoute (db : Db) (currentUserId : Option String) (profileId : String)
    (roleQ : Option String) (limitQ : Option String) (outcome : AiOutcome) :
    HttpResult (List EnrichedMatch) :=
  match currentUserId with
  | none => .err 401
  | some uid =>
    match getProfileByUserId db uid with
    | none => .err 404
    | some currentProfile =>
      if currentProfile.id ≠ profileId then .err 403
      else
        let limit := maxResults limitQ
        let currentUserProjects :=
          if currentProfile.role = "coder" then getProjectsByVibeCoder db profileId else []
        let ranked := rankedCandidates db currentProfile profileId roleQ
        let candidates := ranked.map (fun p =>
          { profile := p
            projects := if p.role = "coder" then getProjectsByVibeCoder db p.id else []
            : MatchCandidate })
        let aiMatches :=
          generateMatches currentProfile currentUserProjects candidates limit outcome
        .ok (aiMatches.map (fun m => { result := m, profile := getProfile db m.profileId }))

/-! ### Match creation and update routes -/

/-- Parsed body of `POST /api/matches` (`insertMatchSchema` omits `id`,
`createdAt` and `respondedAt`; `status` falls back to the column default
`'pending'` when absent). -/
structure InsertMatch where
  initiatorId : String
  receiverId : String
  status : Option String := none
  matchType : String
  matchReason : Option String := none
  message : Option String := none
deriving DecidableEq

/-- `POST /api/matches`: scan the initiator's existing matches for a pending
match of the same unordered pair in either direction; 409 when found,
otherwise insert.  `freshId`/`now` stand for the DB-generated id and
timestamp. -/
def createMatchRoute (db : Db) (d : InsertMatch) (freshId : String) (now : Nat) :
    HttpResult Match × Db :=
  let existingMatches := getMatches db d.initiatorId
  let hasPendingMatch := existingMatches.any (fun m =>
    (m.initiatorId = d.initiatorId ∧ m.receiverId = d.receiverId ∧ m.status = "pending") ∨
    (m.initiatorId = d.receiverId ∧ m.receiverId = d.initiatorId ∧ m.status = "pending"))
  if hasPendingMatch then (.err 409, db)
  else
    let newMatch : Match :=
      { id := freshId, initiatorId := d.initiatorId, receiverId := d.receiverId
        status := d.status.getD "pending", matchType := d.matchType
        matchReason := d.matchReason, message := d.message
        createdAt := now, respondedAt := none }
    (.ok newMatch, { db with matchRows := db.matchRows ++ [newMatch] })

/-- `resolveCurrentProfile`: the resolved identity looked up by
`storage.getProfileByUserId`.  The development-mode auto-provisioning branch
(`hasDevHeader` with a missing profile) is outside the verified behaviours,
which all concern callers whose profile exists. -/
def resolveCurrentProfile (db : Db) (currentUserId : Option String) : Option Profile :=
  currentUserId.bind (getProfileByUserId db)

/-- Body of `PATCH /api/matches/:id` restricted to the fields the verified
properties mention.  A `some` value models a JS-truthy provided value (the
handler tests both fields with truthiness). -/
structure MatchPatchBody where
  status : Option String := none
  respondedAt : Option Nat := none
deriving DecidableEq

/-- `drizzle`'s `.set` on the `matches` table for the fields of
`MatchPatchBody`: only provided keys are written. -/
def applyMatchPatch (m : Match) (status : Option String) (respondedAt : Option Nat) :
    Match :=
  { m with
    status := status.getD m.status
    respondedAt := match respondedAt with | some t => some t | none => m.respondedAt }

/-- `PATCH /api/matches/:id`: resolve the caller, look the match up among the
caller's own matches (404 otherwise), reject a non-receiver trying to set a
non-`pending` status with 403, set `respondedAt` from the body when provided
and otherwise auto-fill it with the current time on a status change, then
update the row. -/
def updateMatchRoute (db : Db) (currentUserId : Option String) (matchId : String)
    (body : MatchPatchBody) (now : Nat) : HttpResult Match × Db :=
  match resolveCurrentProfile db currentUserId with
  | none => (.err 401, db)
  | some currentProfile =>
    match (getMatches db currentProfile.id).find? (fun m => m.id = matchId) with
    | none => (.err 404, db)
    | some m =>
      if truthyStr body.status ∧ body.status ≠ some "pending" ∧
          m.receiverId ≠ currentProfile.id then
        (.err 403, db)
      else
        let respondedAtVal : Option Nat :=
          if body.respondedAt.isSome then body.respondedAt
          else if truthyStr body.status ∧ body.status ≠ some "pending" then some now
          else none
        let newRows := db.matchRows.map (fun mm =>
          if mm.id = matchId then applyMatchPatch mm body.status respondedAtVal else mm)
        match (newRows.filter (fun mm => mm.id = matchId)).head? with
        | none => (.err 404, db)
        | some updated => (.ok updated, { db with matchRows := newRows })

/-! ### Project-member access mutation and project sub-resource reads -/

/-- `PATCH /api/project-members/:id`.  `parsedBody` is the result of the
`z.object({ hasAccess: z.boolean() })` parse: `none` when the body carries no
boolean `hasAccess` (a 400), otherwise the value with every other key
stripped.  Order of checks as in the handler: auth header, body validation,
member lookup, project lookup, ownership, update of the single field. -/
def updateProjectMemberRoute (db : Db) (currentUserId : Option String)
    (memberId : String) (parsedBody : Option Bool) : HttpResult ProjectMember × Db :=
  match currentUserId with
  | none => (.err 401, db)
  | some uid =>
    match parsedBody with
    | none => (.err 400, db)
    | some hasAccessVal =>
      match getProjectMember db memberId with
      | none => (.err 404, db)
      | some memberToUpdate =>
        match getProject db memberToUpdate.projectId with
        | none => (.err 404, db)
        | some project =>
          if uid ≠ project.vibeCodeId then (.err 403, db)
          else
            let newMembers := db.members.map (fun mm =>
              if mm.id = memberId then { mm with hasAccess := hasAccessVal } else mm)
            match (newMembers.filter (fun mm => mm.id = memberId)).head? with
            | none => (.err 404, db)
            | some updated => (.ok updated, { db with members := newMembers })

/-- `GET /api/projects/:projectId/tasks`: the handler reads no caller
identity at all and performs no membership check — it returns the project's
full task list to any caller.  The `caller` argument records the requester
the claim quantifies over; the source handler ignores it. -/
def getProjectTasksRoute (db : Db) (caller : Option String) (projectId : String) :
    HttpResult (List Task) :=
  .ok (getTasksByProject db projectId)

/-- Membership test used to state the access-control claims: the profile
appears in the project's member list. -/
def isProjectMemberOf (db : Db) (projectId : String) (profileId : String) : Bool :=
  (getProjectMembers db projectId).any (fun m => m.profileId = profileId)

/-! ### Dashboard value-distribution computation (project dashboard page) -/

/-- One entry of `contributorPercentages` on the dashboard page.  JS float
arithmetic is modelled exactly over `ℚ`; the guarded division never divides
by zero, which is precisely what keeps the JS value out of `NaN`. -/
structure ContributorShare where
  contributorId : String
  percentage : ℚ
  value : Int
deriving DecidableEq

/-- `totalValue`: `contributions.reduce((sum, c) => sum + (c.valueScore || 0), 0)`. -/
def totalValue (cs : List Contribution) : Int :=
  cs.foldl (fun s c => s + c.valueScore.getD 0) 0

/-- Keys of a JS object built by first-assignment, in `Object.entries`
order: first occurrences, left to right. -/
def firstOccurrences (l : List String) : List String :=
  l.foldl (fun acc x => if acc.contains x then acc else acc ++ [x]) []

/-- Accumulated value of one contributor in `contributorValues` (the
single-pass `reduce` over a record accumulates, per key, the sum of that
contributor's `valueScore || 0`). -/
def contributorValue (cs : List Contribution) (cid : String) : Int :=
  (cs.filter (fun c => c.contributorId = cid)).foldl
    (fun s c => s + c.valueScore.getD 0) 0

/-- `contributorPercentages`:
`Object.entries(contributorValues).map(([id, value]) => ({ contributorId,
percentage: totalValue > 0 ? (value / totalValue) * 100 : 0, value }))`. -/
def contributorPercentages (cs : List Contribution) : List ContributorShare :=
  (firstOccurrences (cs.map (fun c => c.contributorId))).map (fun cid =>
    let value := contributorValue cs cid
    { contributorId := cid
      percentage :=
        if 0 < totalValue cs then ((value : ℚ) / ((totalValue cs : Int) : ℚ)) * 100 else 0
      value := value })

/-! ### Spec-side definitions

These two definitions follow the wording of claim C2 rather than the source;
they exist to be compared against `heuristicScore`. -/

/-- The pre-ranking score as claim C2 words it: 10 × the number of (distinct)
tags shared with the requester, plus 5 when the candidate's location is a
non-null string identical to the requester's location. -/
def claimedPreRankScore (u c : Profile) : Int :=
  10 * ((((c.tags.getD []).dedup).filter (fun t => (u.tags.getD []).contains t)).length : Int)
    + (match c.location, u.location with
        | some lc, some lu => if lc = lu then 5 else 0
        | _, _ => 0)

/-- The pre-ranking score as the amended claim words it: 10 per entry of the
candidate's tag list that occurs among the requester's tags, plus 5 when the
requester's location is a non-null, non-empty string and the candidate's
location is an identical string. -/
def amendedPreRankScore (u c : Profile) : Int :=
  10 * (((c.tags.getD []).countP (fun t => (u.tags.getD []).contains t)) : Int)
    + (if (∃ l, u.location = some l ∧ l ≠ "" ∧ c.location = some l) then 5 else 0)

/-! ### Helper lemmas -/

/-- Every failure mode of the external call yields the empty result list. -/
lemma generateMatches_failure (cu : Profile) (ps : List Project)
    (cands : List MatchCandidate) (lim : Nat) :
    generateMatches cu ps cands lim .callFailed = [] ∧
    generateMatches cu ps cands lim .noContent = [] ∧
    generateMatches cu ps cands lim .unparsable = [] := by
  refine ⟨?_, ?_, ?_⟩ <;> · unfold generateMatches; split <;> rfl

/-- Members of the scorer's output come from the parsed response and passed
the `matchScore >= 50` filter. -/
lemma generateMatches_mem (cu : Profile) (ps : List Project)
    (cands : List MatchCandidate) (lim : Nat) (r : AiResponse) (m : MatchResult)
    (hm : m ∈ generateMatches cu ps cands lim (.parsed r)) :
    m ∈ r.responseMatches.getD [] ∧ 50 ≤ m.matchScore := by
  unfold generateMatches at hm
  split at hm
  · simp at hm
  · have h1 : m ∈ ((r.responseMatches.getD []).filter
        (fun m => 50 ≤ m.matchScore)).insertionSort msGe :=
      List.take_subset _ _ hm
    have h2 := (List.mem_insertionSort msGe).mp h1
    have h3 := List.mem_filter.mp h2
    exact ⟨h3.1, of_decide_eq_true h3.2⟩

/-- The scorer returns at most `lim` results. -/
lemma generateMatches_length (cu : Profile) (ps : List Project)
    (cands : List MatchCandidate) (lim : Nat) (o : AiOutcome) :
    (generateMatches cu ps cands lim o).length ≤ lim := by
  unfold generateMatches
  split
  · simp
  · match o with
    | .callFailed => simp
    | .noContent => simp
    | .unparsable => simp
    | .parsed r => exact List.length_take_le _ _

/-- The scorer's output is sorted descending by `matchScore`. -/
lemma generateMatches_sorted (cu : Profile) (ps : List Project)
    (cands : List MatchCandidate) (lim : Nat) (o : AiOutcome) :
    (generateMatches cu ps cands lim o).Pairwise msGe := by
  unfold generateMatches
  split
  · simp
  · match o with
    | .callFailed => simp
    | .noContent => simp
    | .unparsable => simp
    | .parsed r =>
      exact List.Pairwise.sublist (List.take_sublist _ _)
        (List.sorted_insertionSort msGe _)

/-- `Math.min(Math.max(1, x), 20)` lies in `[1, 20]`. -/
lemma clamp_bounds (x : Int) :
    1 ≤ (min (max 1 x) 20).toNat ∧ (min (max 1 x) 20).toNat ≤ 20 := by
  constructor <;> omega

/-- The clamped result limit always lies in `[1, 20]`. -/
lemma maxResults_bounds (lq : Option String) :
    1 ≤ maxResults lq ∧ maxResults lq ≤ 20 :=
  clamp_bounds _

/-- Every result the scorer returns carries a score of at least 50. -/
lemma generateMatches_score (cu : Profile) (ps : List Project)
    (cands : List MatchCandidate) (lim : Nat) (o : AiOutcome) (m : MatchResult)
    (hm : m ∈ generateMatches cu ps cands lim o) : 50 ≤ m.matchScore := by
  match o with
  | .callFailed => rw [(generateMatches_failure cu ps cands lim).1] at hm; cases hm
  | .noContent => rw [(generateMatches_failure cu ps cands lim).2.1] at hm; cases hm
  | .unparsable => rw [(generateMatches_failure cu ps cands lim).2.2] at hm; cases hm
  | .parsed r => exact (generateMatches_mem cu ps cands lim r m hm).2

/-- Membership in the doubly filtered candidate set, unfolded. -/
lemma mem_candidateProfilesOf {db : Db} {cp p : Profile} {pid : String}
    {rq : Option String} (h : p ∈ candidateProfilesOf db cp pid rq) :
    p ∈ db.profiles ∧ candidateFilter cp pid rq p = true ∧
      p.id ∉ existingMatchIds db pid := by
  unfold candidateProfilesOf at h
  have h1 := List.mem_filter.mp h
  have h2 := List.mem_filter.mp h1.1
  refine ⟨h2.1, h2.2, ?_⟩
  have := h1.2
  simp at this
  exact this

/-- Pre-ranked candidates are drawn from the filtered candidate set. -/
lemma mem_rankedCandidates {db : Db} {cp p : Profile} {pid : String}
    {rq : Option String} (h : p ∈ rankedCandidates db cp pid rq) :
    p ∈ candidateProfilesOf db cp pid rq := by
  unfold rankedCandidates at h
  obtain ⟨pair, hpair, hfst⟩ := List.mem_map.mp h
  have h1 : pair ∈ ((candidateProfilesOf db cp pid rq).map
      (fun candidate => (candidate, heuristicScore cp candidate))).insertionSort scGe :=
    List.take_subset _ _ hpair
  have h2 := (List.mem_insertionSort scGe).mp h1
  obtain ⟨c, hc, hce⟩ := List.mem_map.mp h2
  subst hfst
  rw [← hce]
  exact hc

/-- What the first candidate filter guarantees about a survivor. -/
lemma candidateFilter_spec {cp p : Profile} {pid : String} {rq : Option String}
    (h : candidateFilter cp pid rq p = true) :
    p.id ≠ pid ∧ roleCompatible cp.role p.role = true ∧
      (truthyStr rq = true → p.role = rq.getD "") := by
  unfold candidateFilter at h
  split at h
  · exact absurd h (by simp)
  · split at h
    · exact absurd h (by simp)
    · next h1 h2 =>
      refine ⟨h1, h, ?_⟩
      intro ht
      by_contra hr
      exact h2 ⟨ht, hr⟩

/-- A candidate id outside `existingMatchIds` has no match with the
requester in the store, in either direction. -/
lemma not_connected_of_not_mem_existingMatchIds {db : Db} {pid cid : String}
    (hne : cid ≠ pid) (h : cid ∉ existingMatchIds db pid) :
    ∀ m ∈ db.matchRows,
      ¬(m.initiatorId = pid ∧ m.receiverId = cid) ∧
      ¬(m.initiatorId = cid ∧ m.receiverId = pid) := by
  intro m hm
  constructor
  · rintro ⟨hi, hr⟩
    apply h
    unfold existingMatchIds
    refine List.mem_map.mpr ⟨m, ?_, ?_⟩
    · unfold getMatches
      refine (List.mem_insertionSort _).mpr (List.mem_filter.mpr ⟨hm, ?_⟩)
      simp [hi]
    · simp [hi, hr]
  · rintro ⟨hi, hr⟩
    apply h
    unfold existingMatchIds
    refine List.mem_map.mpr ⟨m, ?_, ?_⟩
    · unfold getMatches
      refine (List.mem_insertionSort _).mpr (List.mem_filter.mpr ⟨hm, ?_⟩)
      simp [hr]
    · simp [hi, hne]

/-! ### Claim theorems -/

/-- C8 (confirmed): if the external text-generation call fails, returns no
content, or returns content that `JSON.parse` rejects, `generateMatches`
returns the empty list instead of propagating an error, and under any such
failure the suggestion endpoint answers the caller with an empty result set
(`ok []`), not an upstream-failure error. -/
theorem c8_ai_failure_yields_empty_results :
    (∀ (cu : Profile) (ps : List Project) (cands : List MatchCandidate) (lim : Nat),
      generateMatches cu ps cands lim .callFailed = [] ∧
      generateMatches cu ps cands lim .noContent = [] ∧
      generateMatches cu ps cands lim .unparsable = []) ∧
    (∀ (db : Db) (uid profileId : String) (roleQ limitQ : Option String)
       (o : AiOutcome) (P : Profile),
      getProfileByUserId db uid = some P → P.id = profileId →
      (o = .callFailed ∨ o = .noContent ∨ o = .unparsable) →
      suggestionsRoute db (some uid) profileId roleQ limitQ o = .ok []) := by
  refine ⟨generateMatches_failure, ?_⟩
  intro db uid profileId roleQ limitQ o P hP hid ho
  unfold suggestionsRoute
  dsimp only
  rw [hP]
  dsimp only
  rw [if_neg (by simp [hid])]
  rcases ho with rfl | rfl | rfl
  · rw [(generateMatches_failure _ _ _ _).1]; simp
  · rw [(generateMatches_failure _ _ _ _).2.1]; simp
  · rw [(generateMatches_failure _ _ _ _).2.2]; simp

/-- C8 witness: a concrete requester with one eligible candidate and a
failing external call receives `200 []`. -/
theorem c8_ai_failure_yields_empty_results_witness :
    suggestionsRoute
      { profiles := [{ id := "p", userId := some "u", name := "A", role := "coder" },
                     { id := "q", userId := some "v", name := "B", role := "investor" }] }
      (some "u") "p" none none .callFailed = .ok [] :=
  c8_ai_failure_yields_empty_results.2 _ "u" "p" none none .callFailed
    { id := "p", userId := some "u", name := "A", role := "coder" }
    (by decide) (by decide) (Or.inl rfl)

/-- C9 (confirmed): when the caller's canonical profile id differs from the
`profileId` path parameter, the suggestions route answers 403, for every
candidate set, every query parameter and every outcome of the external
call — in particular the response is independent of the external scoring
step, which the quantification over `o` makes precise. -/
theorem c9_suggestions_owner_only :
    ∀ (db : Db) (uid profileId : String) (roleQ limitQ : Option String)
      (o : AiOutcome) (P : Profile),
      getProfileByUserId db uid = some P → P.id ≠ profileId →
      suggestionsRoute db (some uid) profileId roleQ limitQ o = .err 403 := by
  intro db uid profileId roleQ limitQ o P hP hne
  unfold suggestionsRoute
  dsimp only
  rw [hP]
  dsimp only
  rw [if_pos hne]

/-- C9 witness: a caller whose canonical profile is `p` asking for profile
`q`'s suggestions receives 403. -/
theorem c9_suggestions_owner_only_witness :
    suggestionsRoute
      { profiles := [{ id := "p", userId := some "u", name := "A", role := "coder" }] }
      (some "u") "q" none none .callFailed = .err 403 :=
  c9_suggestions_owner_only _ "u" "q" none none .callFailed
    { id := "p", userId := some "u", name := "A", role := "coder" }
    (by decide) (by decide)

/-- C3 (confirmed): the limit query parameter defaults to 10 when absent,
JS-falsy, or when `parseInt` yields `NaN` (the reading of "non-numeric"
matching the source's `isNaN` test), is otherwise clamped to `[1, 20]`; and
every successful response of the suggestions route contains only results
with `matchScore ≥ 50`, sorted descending by `matchScore`, with at most 20
elements. -/
theorem c3_postfilter_sort_and_clamp :
    (maxResults none = 10) ∧ (maxResults (some "") = 10) ∧
    (∀ s : String, s ≠ "" → jsParseInt s = none → maxResults (some s) = 10) ∧
    (∀ (s : String) (n : Int), s ≠ "" → jsParseInt s = some n →
      maxResults (some s) = (min (max 1 n) 20).toNat) ∧
    (∀ lq : Option String, 1 ≤ maxResults lq ∧ maxResults lq ≤ 20) ∧
    (∀ (db : Db) (uid profileId : String) (roleQ limitQ : Option String)
       (o : AiOutcome) (es : List EnrichedMatch),
      suggestionsRoute db (some uid) profileId roleQ limitQ o = .ok es →
      es.length ≤ 20 ∧ (∀ e ∈ es, 50 ≤ e.result.matchScore) ∧
      es.Pairwise (fun a b => b.result.matchScore ≤ a.result.matchScore)) := by
  have hts : ∀ s : String, s ≠ "" → truthyStr (some s) = true := by
    intro s hs; simp [truthyStr, hs]
  refine ⟨by decide, by decide, ?_, ?_, maxResults_bounds, ?_⟩
  · intro s hs hp
    unfold maxResults
    rw [if_pos (by simp [hts s hs])]
    simp [hp]
  · intro s n hs hp
    unfold maxResults
    rw [if_pos (by simp [hts s hs])]
    simp [hp]
  · intro db uid pid rq lqq o es h
    unfold suggestionsRoute at h
    split at h
    · exact HttpResult.noConfusion h
    · split at h
      · exact HttpResult.noConfusion h
      · split at h
        · exact HttpResult.noConfusion h
        · injection h with h
          subst h
          refine ⟨?_, ?_, ?_⟩
          · rw [List.length_map]
            exact le_trans (generateMatches_length _ _ _ _ _) (maxResults_bounds lqq).2
          · intro e he
            obtain ⟨m, hm, rfl⟩ := List.mem_map.mp he
            exact generateMatches_score _ _ _ _ _ _ hm
          · exact List.Pairwise.map _ (fun a b hab => hab)
              (generateMatches_sorted _ _ _ _ _)

/-- C3 witness: `limit=50` clamps to 20, `limit=abc` defaults to 10, and a
concrete successful response (parsed outcome with one 90-score entry)
satisfies the bound and the score floor. -/
theorem c3_postfilter_sort_and_clamp_witness :
    maxResults (some "50") = 20 ∧ maxResults (some "abc") = 10 ∧
    (1 ≤ maxResults (some "3") ∧ maxResults (some "3") ≤ 20) := by
  refine ⟨?_, ?_, c3_postfilter_sort_and_clamp.2.2.2.2.1 (some "3")⟩
  · rw [c3_postfilter_sort_and_clamp.2.2.2.1 "50" 50 (by decide) (by decide)]
    decide
  · exact c3_postfilter_sort_and_clamp.2.2.1 "abc" (by decide) (by decide)

/-- C4 (confirmed): while a pending match between an unordered pair of
profiles is stored, a second creation request for the same pair — in either
orientation — is answered 409 and leaves the store unchanged. -/
theorem c4_duplicate_pending_match_rejected :
    ∀ (db : Db) (d : InsertMatch) (freshId : String) (now : Nat) (m : Match),
      m ∈ db.matchRows → m.status = "pending" →
      ((m.initiatorId = d.initiatorId ∧ m.receiverId = d.receiverId) ∨
       (m.initiatorId = d.receiverId ∧ m.receiverId = d.initiatorId)) →
      createMatchRoute db d freshId now = (.err 409, db) := by
  intro db d fid now m hm hs hdir
  have hmem : m ∈ getMatches db d.initiatorId := by
    unfold getMatches
    refine (List.mem_insertionSort _).mpr (List.mem_filter.mpr ⟨hm, ?_⟩)
    rcases hdir with ⟨h1, _⟩ | ⟨_, h2⟩
    · simp [h1]
    · simp [h2]
  have hany : (getMatches db d.initiatorId).any (fun mm =>
      (mm.initiatorId = d.initiatorId ∧ mm.receiverId = d.receiverId ∧
        mm.status = "pending") ∨
      (mm.initiatorId = d.receiverId ∧ mm.receiverId = d.initiatorId ∧
        mm.status = "pending")) = true := by
    refine List.any_eq_true.mpr ⟨m, hmem, ?_⟩
    rcases hdir with ⟨h1, h2⟩ | ⟨h1, h2⟩
    · simp [h1, h2, hs]
    · simp [h1, h2, hs]
  unfold createMatchRoute
  dsimp only
  rw [hany]
  rfl

/-- C4 witness: with a stored pending match from `a` to `b`, both the repeat
request `a → b` and the reverse request `b → a` are answered 409 with the
store unchanged. -/
theorem c4_duplicate_pending_match_rejected_witness :
    (createMatchRoute
      { matchRows := [{ id := "m1", initiatorId := "a", receiverId := "b",
                        status := "pending", matchType := "collaboration" }] }
      { initiatorId := "a", receiverId := "b", matchType := "collaboration" }
      "m2" 7 =
      (.err 409,
        { matchRows := [{ id := "m1", initiatorId := "a", receiverId := "b",
                          status := "pending", matchType := "collaboration" }] })) ∧
    (createMatchRoute
      { matchRows := [{ id := "m1", initiatorId := "a", receiverId := "b",
                        status := "pending", matchType := "collaboration" }] }
      { initiatorId := "b", receiverId := "a", matchType := "collaboration" }
      "m2" 7 =
      (.err 409,
        { matchRows := [{ id := "m1", initiatorId := "a", receiverId := "b",
                          status := "pending", matchType := "collaboration" }] })) :=
  ⟨c4_duplicate_pending_match_rejected _ _ "m2" 7
      { id := "m1", initiatorId := "a", receiverId := "b",
        status := "pending", matchType := "collaboration" }
      (by decide) (by decide) (Or.inl (by decide)),
    c4_duplicate_pending_match_rejected _ _ "m2" 7
      { id := "m1", initiatorId := "a", receiverId := "b",
        status := "pending", matchType := "collaboration" }
      (by decide) (by decide) (Or.inr (by decide))⟩

/-- C2 counterexample: with requester tags `["AI"]` and location `""`, and a
candidate with tags `["AI", "AI"]` and location `""`, the code assigns score
20 where the claimed formula — 10 × (number of shared tags) + 5 for
identical non-null locations — gives 15: the code counts candidate tag
entries with multiplicity, and its JS-truthiness test gives no location
bonus for an identical empty-string location even though `""` is a non-null
string. -/
theorem c2_pre_rank_score_counterexample :
    heuristicScore
      { id := "p", userId := none, name := "A", role := "coder",
        location := some "", tags := some ["AI"] }
      { id := "q", userId := none, name := "B", role := "investor",
        location := some "", tags := some ["AI", "AI"] } = 20 ∧
    claimedPreRankScore
      { id := "p", userId := none, name := "A", role := "coder",
        location := some "", tags := some ["AI"] }
      { id := "q", userId := none, name := "B", role := "investor",
        location := some "", tags := some ["AI", "AI"] } = 15 := by
  constructor <;> decide

/-- C2 (amended): every remaining candidate is assigned the score
10 × (number of entries of the candidate's tag list that occur among the
requester's tags) + 5 when the requester's location is a non-null,
non-empty string and the candidate's location is an identical string; the
candidates are sorted in descending order of this score; and at most the
top 20 are passed on, for every input candidate set. -/
theorem c2_pre_rank_score_sort_truncate :
    (∀ u c : Profile, heuristicScore u c = amendedPreRankScore u c) ∧
    (∀ (db : Db) (cp : Profile) (pid : String) (rq : Option String),
      (rankedCandidates db cp pid rq).length ≤ 20 ∧
      (∀ p ∈ rankedCandidates db cp pid rq, p ∈ candidateProfilesOf db cp pid rq) ∧
      (rankedCandidates db cp pid rq).Pairwise
        (fun a b => heuristicScore cp b ≤ heuristicScore cp a)) := by
  constructor
  · intro u c
    unfold heuristicScore amendedPreRankScore
    rw [List.countP_eq_length_filter]
    cases hu : u.location with
    | none =>
      dsimp only
      rw [if_neg (by rintro ⟨l, hl, -, -⟩; exact Option.noConfusion hl)]
      simp
    | some l =>
      dsimp only
      by_cases hl : l ≠ "" ∧ c.location = some l
      · rw [if_pos hl, if_pos ⟨l, rfl, hl.1, hl.2⟩]
      · rw [if_neg hl, if_neg (by
          rintro ⟨l', hl', h1, h2⟩
          cases Option.some_inj.mp hl'
          exact hl ⟨h1, h2⟩)]
        simp
  · intro db cp pid rq
    refine ⟨?_, fun p hp => mem_rankedCandidates hp, ?_⟩
    · unfold rankedCandidates
      rw [List.length_map]
      exact List.length_take_le _ _
    · unfold rankedCandidates
      rw [List.pairwise_map]
      have hsorted : (((candidateProfilesOf db cp pid rq).map
          (fun candidate => (candidate, heuristicScore cp candidate))).insertionSort
            scGe).Pairwise scGe :=
        List.sorted_insertionSort scGe _
      have htake := List.Pairwise.sublist (List.take_sublist 20 _) hsorted
      have hval : ∀ x ∈ ((((candidateProfilesOf db cp pid rq).map
          (fun candidate => (candidate, heuristicScore cp candidate))).insertionSort
            scGe).take 20), x.2 = heuristicScore cp x.1 := by
        intro x hx
        have hx1 := (List.mem_insertionSort scGe).mp (List.take_subset _ _ hx)
        obtain ⟨c, -, rfl⟩ := List.mem_map.mp hx1
        rfl
      refine List.Pairwise.imp_of_mem ?_ htake
      intro a b ha hb hr
      have := hval a ha
      have := hval b hb
      unfold scGe at hr
      omega

/-- C2 witness: a concrete two-profile store in which the amended theorem's
membership conclusion applies to an actually pre-ranked candidate. -/
theorem c2_pre_rank_score_sort_truncate_witness :
    { id := "q", userId := some "v", name := "B", role := "investor" : Profile } ∈
      candidateProfilesOf
        { profiles := [{ id := "p", userId := some "u", name := "A", role := "coder" },
                       { id := "q", userId := some "v", name := "B", role := "investor" }] }
        { id := "p", userId := some "u", name := "A", role := "coder" } "p" none :=
  (c2_pre_rank_score_sort_truncate.2 _ _ "p" none).2.1 _ (by decide)

/-- C10 counterexample: a single contribution with `valueScore = -5` makes
the total `-5`, which is nonzero, yet the displayed percentage is 0 rather
than the claimed `value / total × 100 = 100`: the code's guard is
`totalValue > 0`, not `totalValue ≠ 0`. -/
theorem c10_value_distribution_counterexample :
    contributorPercentages
      [{ id := "c1", projectId := "P", contributorId := "A", valueScore := some (-5) }] =
      [{ contributorId := "A", percentage := 0, value := -5 }] ∧
    totalValue
      [{ id := "c1", projectId := "P", contributorId := "A", valueScore := some (-5) }] =
      -5 ∧
    ((-5 : ℚ) / (-5 : ℚ)) * 100 = 100 ∧ (0 : ℚ) ≠ 100 := by
  refine ⟨?_, by decide, by norm_num, by norm_num⟩
  unfold contributorPercentages firstOccurrences contributorValue totalValue
  norm_num

/-- C10 (amended): a missing `valueScore` is treated as 0; whenever the
contributions' total `valueScore` is not positive — in particular when it
is 0 — every contributor's displayed percentage is 0 (never a division by
zero), and when the total is positive each contributor's percentage equals
their summed `valueScore` divided by the total, multiplied by 100. -/
theorem c10_value_distribution :
    (∀ (c : Contribution) (cs : List Contribution),
      totalValue ({ c with valueScore := none } :: cs) =
        totalValue ({ c with valueScore := some 0 } :: cs)) ∧
    (∀ (cs : List Contribution) (share : ContributorShare),
      share ∈ contributorPercentages cs →
      share.value = contributorValue cs share.contributorId ∧
      (totalValue cs ≤ 0 → share.percentage = 0) ∧
      (0 < totalValue cs →
        share.percentage = ((share.value : ℚ) / ((totalValue cs : Int) : ℚ)) * 100)) := by
  constructor
  · intro c cs
    unfold totalValue
    rfl
  · intro cs share hs
    obtain ⟨cid, -, rfl⟩ := List.mem_map.mp hs
    refine ⟨rfl, ?_, ?_⟩
    · intro hle
      simp only
      rw [if_neg (by omega)]
    · intro hlt
      simp only
      rw [if_pos hlt]

/-- C10 witness: the amended theorem applied to a concrete store with a
positive total. -/
theorem c10_value_distribution_witness :
    ({ contributorId := "A", percentage := 100, value := 4 : ContributorShare }.value =
        contributorValue
          [{ id := "c1", projectId := "P", contributorId := "A", valueScore := some 4 }]
          "A") ∧
      (0 < totalValue
          [{ id := "c1", projectId := "P", contributorId := "A", valueScore := some 4 }]) := by
  refine ⟨?_, by decide⟩
  have h := c10_value_distribution.2
    [{ id := "c1", projectId := "P", contributorId := "A", valueScore := some 4 }]
    { contributorId := "A", percentage := 100, value := 4 }
    (by unfold contributorPercentages firstOccurrences contributorValue totalValue; norm_num)
  exact h.1

/-- Case analysis of the member-access mutation: it either fails with some
status and leaves the store untouched, or the caller is the owner and only
the target member row's `hasAccess` is rewritten. -/
lemma updateProjectMemberRoute_cases (db : Db) (cu : Option String)
    (memberId : String) (body : Option Bool) :
    (∃ n, updateProjectMemberRoute db cu memberId body = (.err n, db)) ∨
    (∃ uid b mem proj u,
      cu = some uid ∧ body = some b ∧
      getProjectMember db memberId = some mem ∧
      getProject db mem.projectId = some proj ∧ uid = proj.vibeCodeId ∧
      updateProjectMemberRoute db cu memberId body =
        (.ok u, { db with members := db.members.map (fun mm =>
          if mm.id = memberId then { mm with hasAccess := b } else mm) })) := by
  rcases cu with - | uid
  · exact Or.inl ⟨401, rfl⟩
  rcases body with - | b
  · exact Or.inl ⟨400, rfl⟩
  cases hmem : getProjectMember db memberId with
  | none =>
    refine Or.inl ⟨404, ?_⟩
    unfold updateProjectMemberRoute
    dsimp only
    rw [hmem]
  | some mem =>
    cases hproj : getProject db mem.projectId with
    | none =>
      refine Or.inl ⟨404, ?_⟩
      unfold updateProjectMemberRoute
      dsimp only
      rw [hmem]
      dsimp only
      rw [hproj]
    | some proj =>
      by_cases how : uid = proj.vibeCodeId
      · cases hhead : ((db.members.map (fun mm =>
            if mm.id = memberId then { mm with hasAccess := b } else mm)).filter
              (fun mm => mm.id = memberId)).head? with
        | none =>
          refine Or.inl ⟨404, ?_⟩
          unfold updateProjectMemberRoute
          dsimp only
          rw [hmem]
          dsimp only
          rw [hproj]
          dsimp only
          rw [if_neg (by simp [how]), hhead]
        | some u =>
          refine Or.inr ⟨uid, b, mem, proj, u, rfl, rfl, rfl, hproj, how, ?_⟩
          unfold updateProjectMemberRoute
          dsimp only
          rw [hmem]
          dsimp only
          rw [hproj]
          dsimp only
          rw [if_neg (by simp [how]), hhead]
      · refine Or.inl ⟨403, ?_⟩
        unfold updateProjectMemberRoute
        dsimp only
        rw [hmem]
        dsimp only
        rw [hproj]
        dsimp only
        rw [if_pos how]

/-- C7 (confirmed): the member-access mutation succeeds only when the caller
id equals the project owner's id; a resolved non-owner caller with a valid
body receives 403; every failure leaves the store unchanged; and a success
rewrites only the `hasAccess` field of rows with the target member id,
leaving every other field, every other member row and every other table
unchanged. -/
theorem c7_member_access_owner_only_frame :
    ∀ (db : Db) (cu : Option String) (memberId : String) (body : Option Bool),
      (∀ n, (updateProjectMemberRoute db cu memberId body).1 = .err n →
        (updateProjectMemberRoute db cu memberId body).2 = db) ∧
      ((updateProjectMemberRoute db cu memberId body).2.profiles = db.profiles ∧
       (updateProjectMemberRoute db cu memberId body).2.projects = db.projects ∧
       (updateProjectMemberRoute db cu memberId body).2.tasks = db.tasks ∧
       (updateProjectMemberRoute db cu memberId body).2.contributions = db.contributions ∧
       (updateProjectMemberRoute db cu memberId body).2.matchRows = db.matchRows) ∧
      (∀ m', (updateProjectMemberRoute db cu memberId body).1 = .ok m' →
        ∃ uid mem proj, cu = some uid ∧
          getProjectMember db memberId = some mem ∧
          getProject db mem.projectId = some proj ∧ uid = proj.vibeCodeId) ∧
      (∀ uid b mem proj, cu = some uid → body = some b →
        getProjectMember db memberId = some mem →
        getProject db mem.projectId = some proj →
        uid ≠ proj.vibeCodeId →
        updateProjectMemberRoute db cu memberId body = (.err 403, db)) ∧
      (∀ b, body = some b → ∀ mm ∈ db.members,
        (mm.id ≠ memberId → mm ∈ (updateProjectMemberRoute db cu memberId body).2.members) ∧
        (mm.id = memberId →
          { mm with hasAccess := b } ∈
              (updateProjectMemberRoute db cu memberId body).2.members ∨
            (updateProjectMemberRoute db cu memberId body).2.members = db.members)) := by
  intro db cu memberId body
  rcases updateProjectMemberRoute_cases db cu memberId body with
    ⟨n, hr⟩ | ⟨uid, b, mem, proj, u, hcu, hbody, hmem, hproj, how, hr⟩
  · refine ⟨fun _ _ => by rw [hr], by rw [hr]; exact ⟨rfl, rfl, rfl, rfl, rfl⟩,
      fun m' hok => ?_, ?_, fun b hb mm hmm => ⟨fun _ => by rw [hr]; exact hmm,
        fun _ => Or.inr (by rw [hr])⟩⟩
    · rw [hr] at hok
      exact HttpResult.noConfusion hok
    · intro uid b mem proj hcu hb hmem hproj hne
      subst hcu
      subst hb
      unfold updateProjectMemberRoute
      dsimp only
      rw [hmem]
      dsimp only
      rw [hproj]
      dsimp only
      rw [if_pos hne]
  · refine ⟨fun n herr => ?_, by rw [hr]; exact ⟨rfl, rfl, rfl, rfl, rfl⟩,
      fun m' _ => ⟨uid, mem, proj, hcu, hmem, hproj, how⟩, ?_, ?_⟩
    · rw [hr] at herr
      exact HttpResult.noConfusion herr
    · intro uid' b' mem' proj' hcu' hb' hmem' hproj' hne'
      rw [hcu] at hcu'
      cases Option.some_inj.mp hcu'
      rw [hmem] at hmem'
      cases hmem'
      rw [hproj] at hproj'
      cases Option.some_inj.mp hproj'
      exact absurd how hne'
    · intro b' hb' mm hmm
      rw [hbody] at hb'
      cases Option.some_inj.mp hb'
      constructor
      · intro hne
        rw [hr]
        dsimp only
        refine List.mem_map.mpr ⟨mm, hmm, ?_⟩
        rw [if_neg hne]
      · intro heq
        refine Or.inl ?_
        rw [hr]
        dsimp only
        exact List.mem_map.mpr ⟨mm, hmm, by rw [if_pos heq]⟩

/-- C7 witness: the owner toggles a concrete member's access on; the
non-owner caller `z` is rejected with 403 and the store is unchanged. -/
theorem c7_member_access_owner_only_frame_witness :
    updateProjectMemberRoute
      { projects := [{ id := "P", name := "Proj", vibeCodeId := "o" }],
        members := [{ id := "pm1", projectId := "P", profileId := "m", role := "technical",
                      compensationType := "money", hasAccess := false }] }
      (some "z") "pm1" (some true) =
      (.err 403,
        { projects := [{ id := "P", name := "Proj", vibeCodeId := "o" }],
          members := [{ id := "pm1", projectId := "P", profileId := "m", role := "technical",
                        compensationType := "money", hasAccess := false }] }) :=
  (c7_member_access_owner_only_frame _ (some "z") "pm1" (some true)).2.2.2.1
    "z" true
    { id := "pm1", projectId := "P", profileId := "m", role := "technical",
      compensationType := "money", hasAccess := false }
    { id := "P", name := "Proj", vibeCodeId := "o" }
    rfl rfl (by decide) (by decide) (by decide)

/-- C6 (code bug): the project-task read endpoint performs no membership or
ownership check at all: it returns the project's full task list to every
caller.  Concretely, the caller `x`, who is neither the owner of project
`P` nor in its member list, receives `200` with P's full task list instead
of a permission denial. -/
theorem c6_task_read_lacks_access_check :
    (∀ (db : Db) (caller : Option String) (pid : String),
      getProjectTasksRoute db caller pid = .ok (getTasksByProject db pid)) ∧
    (getProjectTasksRoute
        { projects := [{ id := "P", name := "Proj", vibeCodeId := "o" }],
          members := [{ id := "pm1", projectId := "P", profileId := "mem1",
                        role := "technical", compensationType := "money",
                        hasAccess := false }],
          tasks := [{ id := "t1", projectId := "P", title := "T",
                      assignedTo := some "mem1", createdBy := "o", status := "todo" }] }
        (some "x") "P" =
      .ok [{ id := "t1", projectId := "P", title := "T",
             assignedTo := some "mem1", createdBy := "o", status := "todo" }]) ∧
    (isProjectMemberOf
        { projects := [{ id := "P", name := "Proj", vibeCodeId := "o" }],
          members := [{ id := "pm1", projectId := "P", profileId := "mem1",
                        role := "technical", compensationType := "money",
                        hasAccess := false }],
          tasks := [{ id := "t1", projectId := "P", title := "T",
                      assignedTo := some "mem1", createdBy := "o", status := "todo" }] }
        "P" "x" = false) ∧
    (List.all [{ id := "P", name := "Proj", vibeCodeId := "o" : Project }]
        (fun pr => pr.vibeCodeId ≠ "x") = true) :=
  ⟨fun _ _ _ => rfl, by decide, by decide, by decide⟩

/-- C5 counterexample: on a store with the pending match `m1` from `a` to
`b`, (i) the initiator `a` patches `{ respondedAt: … }` with no status
change and the stored match ends up with `respondedAt` set while still
`pending` — so `respondedAt` can be set before the match leaves `pending` —
and (ii) a third profile `c` attempting the accept transition receives 404,
not a permission error. -/
theorem c5_match_update_counterexample :
    (updateMatchRoute
        { profiles := [{ id := "a", userId := some "ua", name := "A", role := "coder" },
                       { id := "b", userId := some "ub", name := "B", role := "investor" }],
          matchRows := [{ id := "m1", initiatorId := "a", receiverId := "b",
                          status := "pending", matchType := "collaboration" }] }
        (some "ua") "m1" { respondedAt := some 5 } 99).1 =
      .ok { id := "m1", initiatorId := "a", receiverId := "b", status := "pending",
            matchType := "collaboration", respondedAt := some 5 } ∧
    (updateMatchRoute
        { profiles := [{ id := "a", userId := some "ua", name := "A", role := "coder" },
                       { id := "b", userId := some "ub", name := "B", role := "investor" },
                       { id := "c", userId := some "uc", name := "C", role := "technical" }],
          matchRows := [{ id := "m1", initiatorId := "a", receiverId := "b",
                          status := "pending", matchType := "collaboration" }] }
        (some "uc") "m1" { status := some "accepted" } 99) =
      (.err 404,
        { profiles := [{ id := "a", userId := some "ua", name := "A", role := "coder" },
                       { id := "b", userId := some "ub", name := "B", role := "investor" },
                       { id := "c", userId := some "uc", name := "C", role := "technical" }],
          matchRows := [{ id := "m1", initiatorId := "a", receiverId := "b",
                          status := "pending", matchType := "collaboration" }] }) := by
  constructor <;> decide

/-- C5 (amended): among callers whose profile resolves and who send a truthy
non-`pending` status, only the receiver's request goes through: a
participant other than the receiver is answered 403 with the store
unchanged, a caller in whose match list the id does not occur is answered
404 with the store unchanged, and the receiver's transition out of
`pending` stores a match whose `respondedAt` is set (the caller-supplied
value, or the current time when absent).  Unlike the original claim,
`respondedAt` is not write-once: a participant can also set it through a
patch that does not change the status (see the counterexample). -/
theorem c5_receiver_only_transition :
    ∀ (db : Db) (cu : Option String) (matchId : String) (body : MatchPatchBody)
      (now : Nat) (P : Profile),
      resolveCurrentProfile db cu = some P →
      truthyStr body.status = true → body.status ≠ some "pending" →
      (((getMatches db P.id).find? (fun mm => mm.id = matchId) = none →
          updateMatchRoute db cu matchId body now = (.err 404, db)) ∧
       (∀ m, (getMatches db P.id).find? (fun mm => mm.id = matchId) = some m →
          m.receiverId ≠ P.id →
          updateMatchRoute db cu matchId body now = (.err 403, db)) ∧
       (∀ m, (getMatches db P.id).find? (fun mm => mm.id = matchId) = some m →
          m.receiverId = P.id →
          ∃ m', (updateMatchRoute db cu matchId body now).1 = .ok m' ∧
            m'.respondedAt.isSome = true)) := by
  intro db cu matchId body now P hres hts hnp
  refine ⟨?_, ?_, ?_⟩
  · intro hfind
    unfold updateMatchRoute
    rw [hres]
    dsimp only
    rw [hfind]
  · intro m hfind hne
    unfold updateMatchRoute
    rw [hres]
    dsimp only
    rw [hfind]
    dsimp only
    rw [if_pos ⟨by simp [hts], hnp, hne⟩]
  · intro m hfind hrecv
    have hmm : m ∈ (getMatches db P.id) ∧ m.id = matchId := by
      have h1 := List.find?_some hfind
      exact ⟨List.mem_of_find?_eq_some hfind, of_decide_eq_true h1⟩
    have hmrow : m ∈ db.matchRows := by
      have := hmm.1
      unfold getMatches at this
      exact (List.mem_filter.mp ((List.mem_insertionSort _).mp this)).1
    unfold updateMatchRoute
    rw [hres]
    dsimp only
    rw [hfind]
    dsimp only
    rw [if_neg (by rintro ⟨-, -, hne⟩; exact hne hrecv)]
    set rAt : Option Nat :=
      (if body.respondedAt.isSome = true then body.respondedAt
       else
        if truthyStr body.status = true ∧ ¬body.status = some "pending" then some now
        else none) with hrAt
    have hrAtSome : rAt.isSome = true := by
      rw [hrAt]
      cases hb : body.respondedAt with
      | some t => simp [hb]
      | none =>
        simp only [hb, Option.isSome_none, Bool.false_eq_true, if_false]
        rw [if_pos ⟨by simp [hts], hnp⟩]
        rfl
    have hpatched : applyMatchPatch m body.status rAt ∈
        (db.matchRows.map (fun mm =>
          if mm.id = matchId then applyMatchPatch mm body.status rAt else mm)).filter
            (fun mm => mm.id = matchId) := by
      refine List.mem_filter.mpr ⟨List.mem_map.mpr ⟨m, hmrow, by rw [if_pos hmm.2]⟩, ?_⟩
      have : (applyMatchPatch m body.status rAt).id = m.id := rfl
      simp [this, hmm.2]
    have hfiltAll : ∀ x ∈ (db.matchRows.map (fun mm =>
        if mm.id = matchId then applyMatchPatch mm body.status rAt else mm)).filter
          (fun mm => mm.id = matchId), x.respondedAt.isSome = true := by
      intro x hx
      obtain ⟨hx1, hx2⟩ := List.mem_filter.mp hx
      obtain ⟨y, hy, hyx⟩ := List.mem_map.mp hx1
      obtain ⟨t, ht⟩ := Option.isSome_iff_exists.mp hrAtSome
      by_cases hyid : y.id = matchId
      · rw [if_pos hyid] at hyx
        rw [← hyx]
        simp [applyMatchPatch, ht]
      · rw [if_neg hyid] at hyx
        rw [← hyx] at hx2
        exact absurd (of_decide_eq_true hx2) hyid
    cases hhead : ((db.matchRows.map (fun mm =>
        if mm.id = matchId then applyMatchPatch mm body.status rAt else mm)).filter
          (fun mm => mm.id = matchId)).head? with
    | none =>
      rw [List.head?_eq_none_iff] at hhead
      rw [hhead] at hpatched
      cases hpatched
    | some u =>
      exact ⟨u, rfl, hfiltAll u (List.mem_of_mem_head? hhead)⟩

/-- C5 witness: the receiver `b` accepts the pending match `m1` and the
stored result carries a `respondedAt`. -/
theorem c5_receiver_only_transition_witness :
    ∃ m', (updateMatchRoute
        { profiles := [{ id := "a", userId := some "ua", name := "A", role := "coder" },
                       { id := "b", userId := some "ub", name := "B", role := "investor" }],
          matchRows := [{ id := "m1", initiatorId := "a", receiverId := "b",
                          status := "pending", matchType := "collaboration" }] }
        (some "ub") "m1" { status := some "accepted" } 99).1 = .ok m' ∧
      m'.respondedAt.isSome = true :=
  (c5_receiver_only_transition _ (some "ub") "m1" { status := some "accepted" } 99
      { id := "b", userId := some "ub", name := "B", role := "investor" }
      (by decide) (by decide) (by decide)).2.2
    { id := "m1", initiatorId := "a", receiverId := "b",
      status := "pending", matchType := "collaboration" }
    (by decide) (by decide)

/-- C1 counterexample: the route trusts the external scorer's `profileId`s
without checking them against the candidate set it sent.  With requester
`p` (role coder) and one eligible candidate `q`, a parsed response naming
the requester's own id `p` with score 90 flows through the post-filter and
enrichment, so the endpoint's result list contains the requesting profile
itself — refuting the claim, which quantifies over every response of the
external step. -/
theorem c1_suggestions_exclusions_counterexample :
    suggestionsRoute
      { profiles := [{ id := "p", userId := some "u", name := "A", role := "coder" },
                     { id := "q", userId := some "v", name := "B", role := "investor" }] }
      (some "u") "p" none none
      (.parsed
        { responseMatches :=
            some [{ profileId := "p", matchScore := 90, matchReason := "r",
                    matchType := "collaboration" }] }) =
      .ok [{ result := { profileId := "p", matchScore := 90, matchReason := "r",
                         matchType := "collaboration" },
             profile := some { id := "p", userId := some "u", name := "A",
                               role := "coder" } }] := by
  decide

/-- C1 (amended): provided every `profileId` of the parsed external response
lies among the candidate ids the pipeline pre-ranked (an honesty assumption
on the external scorer that the code does not enforce), the suggestion
endpoint's result list never contains the requester, never contains a
profile with a stored match to the requester in either direction and in any
status, and contains only profiles whose role is compatible with the
requester's; when the role query filter is given (JS-truthy), every result's
profile has that role. -/
theorem c1_suggestions_exclusions :
    ∀ (db : Db) (uid pid : String) (rq lq : Option String) (o : AiOutcome)
      (P : Profile) (es : List EnrichedMatch),
      getProfileByUserId db uid = some P →
      (∀ r, o = .parsed r → ∀ m ∈ r.responseMatches.getD [],
        m.profileId ∈ (rankedCandidates db P pid rq).map Profile.id) →
      suggestionsRoute db (some uid) pid rq lq o = .ok es →
      ∀ e ∈ es,
        e.result.profileId ≠ pid ∧
        (∀ mm ∈ db.matchRows,
          ¬(mm.initiatorId = pid ∧ mm.receiverId = e.result.profileId) ∧
          ¬(mm.initiatorId = e.result.profileId ∧ mm.receiverId = pid)) ∧
        (∃ c ∈ db.profiles, c.id = e.result.profileId ∧
          roleCompatible P.role c.role = true ∧
          (truthyStr rq = true → c.role = rq.getD "")) := by
  intro db uid pid rq lq o P es hP hhonest hroute e he
  unfold suggestionsRoute at hroute
  split at hroute
  · exact HttpResult.noConfusion hroute
  · next uid' huid' =>
    split at hroute
    · exact HttpResult.noConfusion hroute
    · next cp hcp =>
      cases Option.some_inj.mp huid'
      rw [hP] at hcp
      cases Option.some_inj.mp hcp
      split at hroute
      · exact HttpResult.noConfusion hroute
      · injection hroute with hroute
        subst hroute
        obtain ⟨m, hm, rfl⟩ := List.mem_map.mp he
        match o with
        | .callFailed =>
          rw [(generateMatches_failure _ _ _ _).1] at hm
          cases hm
        | .noContent =>
          rw [(generateMatches_failure _ _ _ _).2.1] at hm
          cases hm
        | .unparsable =>
          rw [(generateMatches_failure _ _ _ _).2.2] at hm
          cases hm
        | .parsed r =>
          have hmr := (generateMatches_mem _ _ _ _ r m hm).1
          have hin := hhonest r rfl m hmr
          obtain ⟨c, hcr, hcid⟩ := List.mem_map.mp hin
          obtain ⟨hcdb, hcf, hcex⟩ := mem_candidateProfilesOf (mem_rankedCandidates hcr)
          obtain ⟨hne, hcompat, hrole⟩ := candidateFilter_spec hcf
          have hid : ({ result := m, profile := getProfile db m.profileId } :
              EnrichedMatch).result.profileId = c.id := hcid.symm
          rw [hid]
          exact ⟨hne, not_connected_of_not_mem_existingMatchIds hne hcex,
            ⟨c, hcdb, rfl, hcompat, hrole⟩⟩

/-- C1 witness: with the same store and an honest response naming only the
eligible candidate `q`, the amended theorem yields all three exclusion
guarantees for the returned entry. -/
theorem c1_suggestions_exclusions_witness :
    ({ result := { profileId := "q", matchScore := 80, matchReason := "r",
                   matchType := "collaboration" },
       profile := some { id := "q", userId := some "v", name := "B",
                         role := "investor" } } : EnrichedMatch).result.profileId ≠ "p" ∧
    (∀ mm ∈ ({ profiles := [{ id := "p", userId := some "u", name := "A", role := "coder" },
                            { id := "q", userId := some "v", name := "B",
                              role := "investor" }] } : Db).matchRows,
      ¬(mm.initiatorId = "p" ∧ mm.receiverId =
          ({ result := { profileId := "q", matchScore := 80, matchReason := "r",
                         matchType := "collaboration" },
             profile := some { id := "q", userId := some "v", name := "B",
                               role := "investor" } } : EnrichedMatch).result.profileId) ∧
      ¬(mm.initiatorId =
          ({ result := { profileId := "q", matchScore := 80, matchReason := "r",
                         matchType := "collaboration" },
             profile := some { id := "q", userId := some "v", name := "B",
                               role := "investor" } } : EnrichedMatch).result.profileId ∧
        mm.receiverId = "p")) ∧
    (∃ c ∈ ({ profiles := [{ id := "p", userId := some "u", name := "A", role := "coder" },
                           { id := "q", userId := some "v", name := "B",
                             role := "investor" }] } : Db).profiles,
      c.id = ({ result := { profileId := "q", matchScore := 80, matchReason := "r",
                            matchType := "collaboration" },
                profile := some { id := "q", userId := some "v", name := "B",
                                  role := "investor" } } : EnrichedMatch).result.profileId ∧
      roleCompatible "coder" c.role = true ∧
      (truthyStr none = true → c.role = Option.getD none "")) := by
  have h := c1_suggestions_exclusions
    { profiles := [{ id := "p", userId := some "u", name := "A", role := "coder" },
                   { id := "q", userId := some "v", name := "B", role := "investor" }] }
    "u" "p" none none
    (.parsed
      { responseMatches :=
          some [{ profileId := "q", matchScore := 80, matchReason := "r",
                  matchType := "collaboration" }] })
    { id := "p", userId := some "u", name := "A", role := "coder" }
    [{ result := { profileId := "q", matchScore := 80, matchReason := "r",
                   matchType := "collaboration" },
       profile := some { id := "q", userId := some "v", name := "B",
                         role := "investor" } }]
    (by decide)
    (by intro r' hr' m hm
        cases hr'
        revert m hm
        decide)
    (by decide)
    { result := { profileId := "q", matchScore := 80, matchReason := "r",
                  matchType := "collaboration" },
      profile := some { id := "q", userId := some "v", name := "B",
                        role := "investor" } }
    (by decide)
  exact h

end VibeMatch
